import Mathlib

/-!
A shallow embedding of the BGP nexthop tracking core (`bgpd/bgp_nexthop.c`):
the double-buffered nexthop cache, the resolver client, the rgate
verification batching, the import check, the connected-prefix table and the
multi-access check.  IPv4/IPv6 addresses are modelled as `Nat`, machine
integers as `Nat` (unsigned) or `Int` (where signedness matters for the
refcount claims), linked lists of nexthops as `List`, the prefix tries as
association lists keyed by address, and the routing-service socket as
explicit `Bool`/`Option` parameters describing the outcome of each I/O step.
-/

namespace BgpNexthop

/-- Tagged nexthop record, mirroring `struct nexthop` as used by
`bgp_nexthop_same`: the constructor is the `type` tag and carries exactly
the fields that function compares; `other` stands for any tag outside the
enumeration (the `default: do nothing` case compares the tag only). -/
inductive Nexthop where
  | ipv4 (gate : Nat)
  | ifindex (idx : Nat)
  | ifname (idx : Nat)
  | ipv6 (gate : Nat)
  | ipv6Ifindex (gate idx : Nat)
  | ipv6Ifname (gate idx : Nat)
  | other (tag : Nat)
deriving DecidableEq, Repr

/-- `bgp_nexthop_same` (bgp_nexthop.c:113-148): compares the type tags, then
per-tag the gate and/or ifindex fields; unknown tags compare equal when the
tags are equal. -/
def bgp_nexthop_same : Nexthop → Nexthop → Bool
  | .ipv4 g1, .ipv4 g2 => g1 == g2
  | .ifindex i1, .ifindex i2 => i1 == i2
  | .ifname i1, .ifname i2 => i1 == i2
  | .ipv6 g1, .ipv6 g2 => g1 == g2
  | .ipv6Ifindex g1 i1, .ipv6Ifindex g2 i2 => g1 == g2 && i1 == i2
  | .ipv6Ifname g1 i1, .ipv6Ifname g2 i2 => g1 == g2 && i1 == i2
  | .other t1, .other t2 => t1 == t2
  | _, _ => false

/-- Nexthop cache entry, `struct bgp_nexthop_cache`. The doubly linked
nexthop list becomes a `List`; `nexthop_num` is kept as a separate field
exactly as in the C struct (it is the wire count, not derived from the
list). -/
structure Bnc where
  valid : Bool
  metric : Nat
  nexthop_num : Nat
  nexthops : List Nexthop
  changed : Bool
  metricchanged : Bool
deriving DecidableEq, Repr

/-- `bnc_new` (bgp_nexthop.c:100-104): `XCALLOC` zero-fills the struct. -/
def bncNew : Bnc :=
  { valid := false, metric := 0, nexthop_num := 0, nexthops := [],
    changed := false, metricchanged := false }

/-- The position-wise comparison loop of `bgp_nexthop_cache_different`
(bgp_nexthop.c:163-170): walks `n` positions of both lists calling
`bgp_nexthop_same`.  Running off the end of a list would be a NULL
dereference in the C; that branch is modelled as a mismatch and is never
reached for entries whose `nexthop_num` equals the list length. -/
def nexthop_list_same_n : Nat → List Nexthop → List Nexthop → Bool
  | 0, _, _ => true
  | n + 1, x1 :: r1, x2 :: r2 => bgp_nexthop_same x1 x2 && nexthop_list_same_n n r1 r2
  | _ + 1, _, _ => false

/-- `bgp_nexthop_cache_different` (bgp_nexthop.c:150-172): different iff the
nexthop counts differ or some position differs per `bgp_nexthop_same`. -/
def bgp_nexthop_cache_different (bnc1 bnc2 : Bnc) : Bool :=
  if bnc1.nexthop_num != bnc2.nexthop_num then true
  else !(nexthop_list_same_n bnc1.nexthop_num bnc1.nexthops bnc2.nexthops)

/-- A successfully framed and parsed nexthop-lookup reply (the payload read
by `zlookup_read`): the metric word and the per-type nexthop records. -/
structure ZReply where
  metric : Nat
  nexthops : List Nexthop
deriving DecidableEq, Repr

/-- The `Bnc` that `zlookup_read` (bgp_nexthop.c:875-901) builds from a
reply with at least one nexthop: valid=1, metric and list from the wire,
`changed`/`metricchanged` zero from `bnc_new`. -/
def bncFromReply (r : ZReply) : Bnc :=
  { valid := true, metric := r.metric, nexthop_num := r.nexthops.length,
    nexthops := r.nexthops, changed := false, metricchanged := false }

/-- `zlookup_read` (bgp_nexthop.c:836-906) restricted to a successfully
framed reply: a zero-nexthop reply returns NULL, otherwise the parsed
`Bnc`. -/
def zlookup_read (r : ZReply) : Option Bnc :=
  if r.nexthops.isEmpty then none else some (bncFromReply r)

/-- `zlookup_query` (bgp_nexthop.c:923-941): the environment parameter
`query` yields `none` when the socket is closed, the write fails or the
reply has a version/marker mismatch, and `some r` for a well-framed reply
`r`; a reply with no nexthops also comes back NULL via `zlookup_read`. -/
def zlookup_query (query : Nat → Option ZReply) (addr : Nat) : Option Bnc :=
  (query addr).bind zlookup_read

/-- Lookup of a host prefix in one cache buffer (`bgp_node_get` /
`bgp_node_lookup` followed by reading `rn->info`): the buffer is an
association list from address to entry. -/
def bnctLookup : List (Nat × Bnc) → Nat → Option Bnc
  | [], _ => none
  | (a, b) :: rest, x => if x = a then some b else bnctLookup rest x

/-- What `bgp_nexthop_lookup` leaves behind: the return value, the updated
active buffer, whether the resolver was invoked, the cache entry that was
used or inserted, the values written through the `changed` /
`metricchanged` out-pointers (`none` = pointer not written), and the
route's `extra` slot (`none` = `ri->extra` not allocated; readers treat a
missing slot as IGP metric 0). -/
structure LookupResult where
  valid : Bool
  active : List (Nat × Bnc)
  queried : Bool
  bnc : Bnc
  changedOut : Option Bool
  metricchangedOut : Option Bool
  extra : Option Nat
deriving DecidableEq, Repr

/-- The metric-propagation tail of `bgp_nexthop_lookup`
(bgp_nexthop.c:382-385): `bgp_info_extra_get` allocates the extra record
when valid with a nonzero metric; otherwise the metric is zeroed only when
an extra record already exists. -/
def igpUpdate (bnc : Bnc) (extra : Option Nat) : Option Nat :=
  if bnc.valid && bnc.metric != 0 then some bnc.metric
  else
    match extra with
    | some _ => some 0
    | none => none

/-- The fresh-lookup branch of `bgp_nexthop_lookup` (bgp_nexthop.c:349-373):
a NULL resolver result becomes `bnc_new()`; otherwise, and only when the
caller passed a `changed` out-pointer, the previous-generation buffer is
consulted and the `changed`/`metricchanged` flags are filled in. -/
def freshBnc (inactive : List (Nat × Bnc)) (query : Nat → Option ZReply)
    (addr : Nat) (wantChanged : Bool) : Bnc :=
  match zlookup_query query addr with
  | none => bncNew
  | some b =>
      if wantChanged then
        match bnctLookup inactive addr with
        | some old =>
            { b with changed := bgp_nexthop_cache_different b old,
                     metricchanged := if b.metric != old.metric then true
                                      else b.metricchanged }
        | none => b
      else b

/-- `bgp_nexthop_lookup`, IPv4 path (bgp_nexthop.c:319-388).  `active` and
`inactive` are the two cache buffers as seen by this scan, `query` the
resolver environment, `wantChanged`/`wantMetricchanged` the non-NULLness of
the two out-pointers, `extra` the route's current extra slot. -/
def bgp_nexthop_lookup_v4 (active inactive : List (Nat × Bnc))
    (query : Nat → Option ZReply) (addr : Nat)
    (wantChanged wantMetricchanged : Bool) (extra : Option Nat) : LookupResult :=
  match bnctLookup active addr with
  | some bnc =>
      { valid := bnc.valid, active := active, queried := false, bnc := bnc,
        changedOut := if wantChanged then some bnc.changed else none,
        metricchangedOut := if wantMetricchanged then some bnc.metricchanged else none,
        extra := igpUpdate bnc extra }
  | none =>
      let bnc := freshBnc inactive query addr wantChanged
      { valid := bnc.valid, active := (addr, bnc) :: active, queried := true, bnc := bnc,
        changedOut := if wantChanged then some bnc.changed else none,
        metricchangedOut := if wantMetricchanged then some bnc.metricchanged else none,
        extra := igpUpdate bnc extra }

/-- `IN6_IS_ADDR_LINKLOCAL` over a 128-bit address held in a `Nat`: byte 0
equals 0xfe and the top two bits of byte 1 are 10 (fe80::/10). -/
def in6IsLinkLocal (a : Nat) : Bool :=
  a / 2 ^ 120 == 0xfe && (a / 2 ^ 112 % 256) / 64 == 2

/-- Result record for the IPv6 lookup; same reading as `LookupResult`
minus the entry field (the short-circuit path touches no entry). -/
structure Lookup6Result where
  valid : Bool
  active : List (Nat × Bnc)
  queried : Bool
  changedOut : Option Bool
  metricchangedOut : Option Bool
  extra : Option Nat
deriving DecidableEq, Repr

/-- `bgp_nexthop_lookup_ipv6` (bgp_nexthop.c:248-316): an attribute whose
`mp_nexthop_len` is not 16, or whose length-16 global nexthop is
link-local, returns valid immediately, touching neither buffer, issuing no
query, and writing none of the out-slots; otherwise the flow is identical
to the IPv4 path keyed by the global address. -/
def bgp_nexthop_lookup_ipv6 (active inactive : List (Nat × Bnc))
    (query : Nat → Option ZReply) (mpNexthopLen global : Nat)
    (wantChanged wantMetricchanged : Bool) (extra : Option Nat) : Lookup6Result :=
  if mpNexthopLen != 16 || in6IsLinkLocal global then
    { valid := true, active := active, queried := false,
      changedOut := none, metricchangedOut := none, extra := extra }
  else
    match bnctLookup active global with
    | some bnc =>
        { valid := bnc.valid, active := active, queried := false,
          changedOut := if wantChanged then some bnc.changed else none,
          metricchangedOut := if wantMetricchanged then some bnc.metricchanged else none,
          extra := igpUpdate bnc extra }
    | none =>
        let bnc := freshBnc inactive query global wantChanged
        { valid := bnc.valid, active := (global, bnc) :: active, queried := true,
          changedOut := if wantChanged then some bnc.changed else none,
          metricchangedOut := if wantMetricchanged then some bnc.metricchanged else none,
          extra := igpUpdate bnc extra }

/-- The nexthop-resolution part of one scan's RIB walk
(bgp_nexthop.c:571-643): each route contributes its nexthop address; the
lookups thread the active buffer.  Returns the final active buffer and the
addresses for which the resolver was invoked, in order. -/
def runScan (inactive : List (Nat × Bnc)) (query : Nat → Option ZReply) :
    List (Nat × Bnc) → List Nat → List (Nat × Bnc) × List Nat
  | active, [] => (active, [])
  | active, a :: rest =>
      let r := bgp_nexthop_lookup_v4 active inactive query a true true none
      let s := runScan inactive query r.active rest
      (s.1, (if r.queried then [a] else []) ++ s.2)

/-- The double buffer of one AFI: `cache1_table`, `cache2_table` and which
of them `bgp_nexthop_cache_table` currently points at. -/
structure Buffers where
  cache1 : List (Nat × Bnc)
  cache2 : List (Nat × Bnc)
  activeIs1 : Bool
deriving DecidableEq, Repr

/-- `bnct_active` (bgp_nexthop.c:220-224). -/
def Buffers.active (b : Buffers) : List (Nat × Bnc) :=
  if b.activeIs1 then b.cache1 else b.cache2

/-- `bnct_inactive` (bgp_nexthop.c:226-230). -/
def Buffers.inactive (b : Buffers) : List (Nat × Bnc) :=
  if b.activeIs1 then b.cache2 else b.cache1

/-- `bnct_swap` (bgp_nexthop.c:232-236). -/
def bnct_swap (b : Buffers) : Buffers :=
  { b with activeIs1 := !b.activeIs1 }

/-- Store a new contents of the currently active buffer. -/
def Buffers.setActive (b : Buffers) (t : List (Nat × Bnc)) : Buffers :=
  if b.activeIs1 then { b with cache1 := t } else { b with cache2 := t }

/-- `bgp_nexthop_cache_reset` applied to the inactive buffer
(bgp_nexthop.c:390-404, 645): every entry is freed and detached. -/
def resetInactive (b : Buffers) : Buffers :=
  if b.activeIs1 then { b with cache2 := [] } else { b with cache1 := [] }

/-- Buffer-lifecycle events of one scan, for counting swap/reset calls. -/
inductive ScanEvent where
  | swapEv
  | resetEv
deriving DecidableEq, BEq, Repr

/-- `bgp_scan` (bgp_nexthop.c:525-652) restricted to its buffer lifecycle
and nexthop resolution: swap first; if no default BGP instance exists
return at once; otherwise walk the RIB (the nexthop addresses of its
routes), then reset the now-inactive buffer.  The event list records the
swap/reset calls performed. -/
def bgp_scan (hasDefaultBgp : Bool) (query : Nat → Option ZReply)
    (nexthopAddrs : List Nat) (b : Buffers) : Buffers × List ScanEvent :=
  let b1 := bnct_swap b
  if hasDefaultBgp = false then (b1, [ScanEvent.swapEv])
  else
    let act := (runScan b1.inactive query b1.active nexthopAddrs).1
    let b2 := b1.setActive act
    (resetInactive b2, [ScanEvent.swapEv, ScanEvent.resetEv])

/-- One `ZEBRA_BGP_IPV4_RGATE_VERIFY` request frame as built by
`send_rgates` (bgp_nexthop.c:463-482): the morefollows flag and the
`(bgp_nexthop, cached_rgate)` pairs it carries. -/
structure RgateFrame where
  morefollows : Bool
  pairs : List (Nat × Nat)
deriving DecidableEq, Repr

/-- The batching loop of `verify_ipv4_rgates` (bgp_nexthop.c:492-523),
parametric in the batch cap `B`: pairs accumulate in `buf`; a full buffer
is flushed with morefollows=1; after the input is exhausted the remaining
buffer (possibly empty) is flushed with morefollows=0.  All writes are
assumed to succeed (a failed write truncates the sequence in the C). -/
def verify_rgates_aux (B : Nat) : List (Nat × Nat) → List (Nat × Nat) → List RgateFrame
  | [], buf => [{ morefollows := false, pairs := buf }]
  | pr :: rest, buf =>
      if buf.length + 1 = B then
        { morefollows := true, pairs := buf ++ [pr] } :: verify_rgates_aux B rest []
      else
        verify_rgates_aux B rest (buf ++ [pr])

/-- `ZEBRA_MAX_PACKET_SIZ` (lib/zserv.h of the surrounding project, not
under src/): modelled from the spec's `MAX_PACKET` with the project's
value 4096. -/
def ZEBRA_MAX_PACKET_SIZ : Nat := 4096

/-- `ZEBRA_HEADER_SIZE` (lib header, not under src/): length u16 + marker
u8 + version u8 + command u16 = 6 bytes, the spec's `HEADER`. -/
def ZEBRA_HEADER_SIZE : Nat := 6

/-- `VERIFIED_NEXTHOPS_PER_MSG` (bgp_nexthop.c:487): the batch cap B. -/
def VERIFIED_NEXTHOPS_PER_MSG : Nat :=
  (ZEBRA_MAX_PACKET_SIZ - ZEBRA_HEADER_SIZE - 1 - 2) / 8

/-- The request-frame sequence `verify_ipv4_rgates` emits for a given list
of `(bgp_nexthop, cached_rgate)` pairs, socket open and all writes
succeeding. -/
def verify_ipv4_rgates (pairs : List (Nat × Nat)) : List RgateFrame :=
  verify_rgates_aux VERIFIED_NEXTHOPS_PER_MSG pairs []

/-- What the import query produced: a reply whose header failed the
version/marker check, or a parsed reply (metric word plus nexthop
records). -/
inductive ImportReply where
  | mismatch
  | ok (metric : Nat) (nexthops : List Nexthop)
deriving DecidableEq, Repr

/-- `bgp_import_check` (bgp_nexthop.c:1041-1123).  `sockOpen` is
`zlookup->sock >= 0` at entry, `writeOk` whether `zlookup_write_packet`
succeeded, `reply` the reply-parse outcome, `igpmetric0`/`igpnexthop0` the
values behind the (non-NULL) out-pointers at entry.  Returns the `int`
result and the final values behind the two pointers. -/
def bgp_import_check (sockOpen writeOk : Bool) (reply : ImportReply)
    (igpmetric0 igpnexthop0 : Nat) : Bool × Nat × Nat :=
  if sockOpen = false then (true, 0, igpnexthop0)
  else if writeOk = false then (true, igpmetric0, igpnexthop0)
  else
    match reply with
    | .mismatch => (false, igpmetric0, igpnexthop0)
    | .ok metric nexthops =>
        match nexthops with
        | [] => (false, metric, igpnexthop0)
        | nh :: _ =>
            match nh with
            | .ipv4 g => (true, metric, g)
            | _ => (true, metric, 0)

/-- An IPv4 prefix: `(address, prefixlen)`. -/
abbrev Pfx := Nat × Nat

/-- `apply_mask_ipv4`: clear the host bits of the address. -/
def maskPfxV4 (p : Pfx) : Pfx :=
  (p.1 / 2 ^ (32 - p.2) * 2 ^ (32 - p.2), p.2)

/-- `prefix_ipv4_any`: the zero address with prefix length 0. -/
def pfxIsAnyV4 (p : Pfx) : Bool :=
  p.1 == 0 && p.2 == 0

/-- Exact-match lookup in the connected table (`bgp_node_lookup` plus
reading `rn->info->refcnt`); the table is an association list from masked
prefix to refcount. -/
def connLookup : List (Pfx × Int) → Pfx → Option Int
  | [], _ => none
  | (q, n) :: rest, p => if p = q then some n else connLookup rest p

/-- Replace the refcount of the first entry at prefix `p`. -/
def connUpdate : List (Pfx × Int) → Pfx → Int → List (Pfx × Int)
  | [], _, _ => []
  | (q, n) :: rest, p, v => if p = q then (q, v) :: rest else (q, n) :: connUpdate rest p v

/-- Remove the first entry at prefix `p` (node dropped when its value is
removed, per the spec's node-lifetime note). -/
def connRemove : List (Pfx × Int) → Pfx → List (Pfx × Int)
  | [], _ => []
  | (q, n) :: rest, p => if p = q then rest else (q, n) :: connRemove rest p

/-- `bgp_connected_add`, IPv4 family (bgp_nexthop.c:678-717): ignored for
loopback interfaces and for the any-prefix; otherwise the masked prefix
gets its refcnt incremented, or is inserted with refcnt 1. -/
def bgp_connected_add (isLoopback : Bool) (t : List (Pfx × Int)) (p0 : Pfx) :
    List (Pfx × Int) :=
  if isLoopback then t
  else
    let p := maskPfxV4 p0
    if pfxIsAnyV4 p then t
    else
      match connLookup t p with
      | some n => connUpdate t p (n + 1)
      | none => t ++ [(p, 1)]

/-- `bgp_connected_delete`, IPv4 family (bgp_nexthop.c:746-783): same
filters; a present entry has its refcnt decremented and is removed when
the count reaches zero; an absent prefix is a no-op. -/
def bgp_connected_delete (isLoopback : Bool) (t : List (Pfx × Int)) (p0 : Pfx) :
    List (Pfx × Int) :=
  if isLoopback then t
  else
    let p := maskPfxV4 p0
    if pfxIsAnyV4 p then t
    else
      match connLookup t p with
      | none => t
      | some n => if n - 1 = 0 then connRemove t p else connUpdate t p (n - 1)

/-- A sequence of connected-table operations: `(isAdd, isLoopback,
prefix)`. -/
def applyConnOps : List (Bool × Bool × Pfx) → List (Pfx × Int) → List (Pfx × Int)
  | [], t => t
  | (isAdd, lo, p) :: rest, t =>
      applyConnOps rest
        (if isAdd then bgp_connected_add lo t p else bgp_connected_delete lo t p)

/-- Whether the stored prefix `q` contains the host address `addr`:
equality of the top `q.2` bits. -/
def pfxContains (q : Pfx) (addr : Nat) : Bool :=
  addr / 2 ^ (32 - q.2) == q.1 / 2 ^ (32 - q.2)

/-- `bgp_node_match` on the connected table: the longest stored prefix
containing the address; node identity in the trie is prefix identity. -/
def bgp_node_match (table : List Pfx) (addr : Nat) : Option Pfx :=
  table.foldl
    (fun best q =>
      if pfxContains q addr then
        match best with
        | none => some q
        | some b => if b.2 < q.2 then some q else some b
      else best)
    none

/-- `bgp_multiaccess_check_v4` (bgp_nexthop.c:1210-1253): parse the peer
address; fail if the scan socket is closed; match both addresses in the
IPv4 connected table; true iff both match the same node. -/
def bgp_multiaccess_check_v4 (sockOpen : Bool) (table : List Pfx)
    (nexthop : Nat) (peer : Option Nat) : Bool :=
  match peer with
  | none => false
  | some addr =>
      if sockOpen = false then false
      else
        match bgp_node_match table nexthop with
        | none => false
        | some rn1 =>
            match bgp_node_match table addr with
            | none => false
            | some rn2 => rn1 == rn2

/-- A sample previous-generation cache entry: reachable via one IPv4 IGP
gateway with metric 5.  Used by concrete counterexamples. -/
def oldEntry1 : Bnc :=
  { valid := true, metric := 5, nexthop_num := 1, nexthops := [Nexthop.ipv4 10],
    changed := false, metricchanged := false }

end BgpNexthop

namespace BgpNexthop

theorem bgp_nexthop_same_refl (n : Nexthop) : bgp_nexthop_same n n = true := by
  cases n <;> simp [bgp_nexthop_same]

theorem nexthop_list_same_n_refl :
    ∀ (n : Nat) (l : List Nexthop), n ≤ l.length → nexthop_list_same_n n l l = true
  | 0, _, _ => rfl
  | n + 1, [], h => absurd h (by simp)
  | n + 1, x :: rest, h => by
      simp only [nexthop_list_same_n, bgp_nexthop_same_refl, Bool.true_and]
      exact nexthop_list_same_n_refl n rest (Nat.le_of_succ_le_succ (by simpa using h))

/-- `bgp_nexthop_cache_different` depends only on the nexthop count and
list; two entries agreeing there (with a count within the list length)
compare equal. -/
theorem different_eq_false_of_fields (b1 b2 : Bnc)
    (hnum : b1.nexthop_num = b2.nexthop_num) (hl : b1.nexthops = b2.nexthops)
    (hle : b1.nexthop_num ≤ b1.nexthops.length) :
    bgp_nexthop_cache_different b1 b2 = false := by
  simp only [bgp_nexthop_cache_different, hnum, hl, bne_self_eq_false, Bool.false_eq_true,
    if_false, Bool.not_eq_false']
  rw [← hnum, ← hl]
  exact nexthop_list_same_n_refl _ _ hle

theorem zlookup_query_props {query : Nat → Option ZReply} {addr : Nat} {b : Bnc}
    (h : zlookup_query query addr = some b) :
    b.valid = true ∧ b.changed = false ∧ b.metricchanged = false
      ∧ b.nexthop_num = b.nexthops.length := by
  unfold zlookup_query at h
  cases hq : query addr with
  | none => rw [hq] at h; cases h
  | some r =>
      rw [hq] at h
      replace h : zlookup_read r = some b := h
      unfold zlookup_read at h
      by_cases he : r.nexthops.isEmpty
      · rw [if_pos he] at h; cases h
      · rw [if_neg he] at h
        cases h
        simp [bncFromReply]

theorem freshBnc_core_fields (inactive : List (Nat × Bnc)) (query : Nat → Option ZReply)
    (addr : Nat) (b : Bnc) (hq : zlookup_query query addr = some b) :
    (freshBnc inactive query addr true).nexthop_num = b.nexthop_num
    ∧ (freshBnc inactive query addr true).nexthops = b.nexthops
    ∧ (freshBnc inactive query addr true).metric = b.metric := by
  unfold freshBnc
  rw [hq]
  cases bnctLookup inactive addr <;> simp

/-- C1, counterexample: a fresh lookup whose resolver result is NULL
(socket closed) while the previous generation holds a differing entry at
the same prefix.  The inserted default entry differs from the old one, yet
`changed` is reported false, because the inactive-buffer comparison in
`bgp_nexthop_lookup` sits in the non-NULL branch only. -/
theorem c1_counterexample :
    bnctLookup ([] : List (Nat × Bnc)) 7 = none
    ∧ bnctLookup [(7, oldEntry1)] 7 = some oldEntry1
    ∧ bgp_nexthop_cache_different
        (bgp_nexthop_lookup_v4 [] [(7, oldEntry1)] (fun _ => none) 7 true true none).bnc
        oldEntry1 = true
    ∧ (bgp_nexthop_lookup_v4 [] [(7, oldEntry1)] (fun _ => none) 7 true true none).changedOut
        = some false := by
  refine ⟨rfl, rfl, rfl, rfl⟩

/-- C1 (amended): on a fresh lookup with the `changed` out-pointer
provided, the inserted entry's `changed` flag is true iff the resolver
returned a non-NULL entry, a previous-generation entry exists at the same
prefix, and the two differ; a NULL resolver result always leaves `changed`
false. -/
theorem c1_fresh_changed (active inactive : List (Nat × Bnc))
    (query : Nat → Option ZReply) (addr : Nat) (extra : Option Nat)
    (hfresh : bnctLookup active addr = none) :
    (bgp_nexthop_lookup_v4 active inactive query addr true true extra).changedOut = some true
    ↔ ∃ b old, zlookup_query query addr = some b
        ∧ bnctLookup inactive addr = some old
        ∧ bgp_nexthop_cache_different b old = true := by
  simp only [bgp_nexthop_lookup_v4, hfresh, freshBnc]
  cases hq : zlookup_query query addr with
  | none =>
      simp [bncNew]
  | some b =>
      have hbc : b.changed = false := (zlookup_query_props hq).2.1
      cases ho : bnctLookup inactive addr with
      | none => simp [hbc]
      | some old => simp

theorem c1_fresh_changed_witness :
    (bgp_nexthop_lookup_v4 [] [] (fun _ => none) 0 true true none).changedOut = some true
    ↔ ∃ b old, zlookup_query (fun _ => none) 0 = some b
        ∧ bnctLookup ([] : List (Nat × Bnc)) 0 = some old
        ∧ bgp_nexthop_cache_different b old = true :=
  c1_fresh_changed [] [] (fun _ => none) 0 none rfl

/-- C3, counterexample: a version/marker mismatch on the import reply makes
`bgp_import_check` return 0 (invalid) and leave the metric out-parameter
untouched (here 5), where the claim requires true with metric 0. -/
theorem c3_counterexample :
    bgp_import_check true true ImportReply.mismatch 5 7 = (false, 5, 7) := rfl

/-- C3 (amended): `bgp_import_check` returns true with metric 0 only when
the socket is already closed; on a write failure it returns true but
leaves the metric output untouched; on a version/marker mismatch it
returns false, also leaving the metric output untouched. -/
theorem c3_import_check_no_answer (writeOk : Bool) (reply : ImportReply) (m0 n0 : Nat) :
    bgp_import_check false writeOk reply m0 n0 = (true, 0, n0)
    ∧ bgp_import_check true false reply m0 n0 = (true, m0, n0)
    ∧ bgp_import_check true true ImportReply.mismatch m0 n0 = (false, m0, n0) :=
  ⟨rfl, rfl, rfl⟩

theorem igpUpdate_getD (b : Bnc) (e : Option Nat) :
    (igpUpdate b e).getD 0 = if b.valid = true ∧ 0 < b.metric then b.metric else 0 := by
  unfold igpUpdate
  by_cases hv : b.valid = true <;> by_cases hm : b.metric = 0 <;>
    cases e <;> simp [hv, hm, Nat.pos_of_ne_zero]

/-- C6: after `bgp_nexthop_lookup` the route's stored IGP metric (an absent
`extra` record reads as 0) equals the used cache entry's metric when the
entry is valid with a positive metric, and 0 otherwise. -/
theorem c6_metric_propagation (active inactive : List (Nat × Bnc))
    (query : Nat → Option ZReply) (addr : Nat) (wc wm : Bool) (extra : Option Nat) :
    ((bgp_nexthop_lookup_v4 active inactive query addr wc wm extra).extra).getD 0
    = (if (bgp_nexthop_lookup_v4 active inactive query addr wc wm extra).bnc.valid = true
          ∧ 0 < (bgp_nexthop_lookup_v4 active inactive query addr wc wm extra).bnc.metric
       then (bgp_nexthop_lookup_v4 active inactive query addr wc wm extra).bnc.metric
       else 0) := by
  cases h : bnctLookup active addr <;>
    simp only [bgp_nexthop_lookup_v4, h] <;>
    exact igpUpdate_getD _ _

/-- C10: an IPv6 route whose `mp_nexthop_len` differs from 16 (any value,
not only 32), or whose length-16 global nexthop is link-local, short
circuits: valid is returned, neither buffer is consulted or grown, no
resolver query is issued, the out-pointers are not written and the route's
extra slot is untouched. -/
theorem c10_ipv6_shortcircuit (active inactive : List (Nat × Bnc))
    (query : Nat → Option ZReply) (mpNexthopLen global : Nat)
    (wc wm : Bool) (extra : Option Nat)
    (h : mpNexthopLen ≠ 16 ∨ in6IsLinkLocal global = true) :
    bgp_nexthop_lookup_ipv6 active inactive query mpNexthopLen global wc wm extra
    = { valid := true, active := active, queried := false,
        changedOut := none, metricchangedOut := none, extra := extra } := by
  have hcond : (mpNexthopLen != 16 || in6IsLinkLocal global) = true := by
    rcases h with h | h
    · simp [bne_iff_ne, h]
    · simp [h]
  simp [bgp_nexthop_lookup_ipv6, hcond]

theorem c10_ipv6_shortcircuit_witness :
    bgp_nexthop_lookup_ipv6 [(3, oldEntry1)] [(3, oldEntry1)] (fun _ => none) 32 3 true true
      (some 9)
    = { valid := true, active := [(3, oldEntry1)], queried := false,
        changedOut := none, metricchangedOut := none, extra := some 9 } :=
  c10_ipv6_shortcircuit [(3, oldEntry1)] [(3, oldEntry1)] (fun _ => none) 32 3 true true
    (some 9) (Or.inl (by decide))

end BgpNexthop

namespace BgpNexthop

/-- After any lookup of `addr`, the active buffer holds an entry at
`addr`: the cached branch found one, the fresh branch inserted one (also
when the resolver returned NULL). -/
theorem lookup_v4_active_self (active inactive : List (Nat × Bnc))
    (query : Nat → Option ZReply) (addr : Nat) (wc wm : Bool) (extra : Option Nat) :
    (bnctLookup (bgp_nexthop_lookup_v4 active inactive query addr wc wm extra).active
      addr).isSome = true := by
  cases h : bnctLookup active addr with
  | some b => simp [bgp_nexthop_lookup_v4, h]
  | none => simp [bgp_nexthop_lookup_v4, h, bnctLookup]

/-- A lookup never removes entries from the active buffer. -/
theorem lookup_v4_active_mono (active inactive : List (Nat × Bnc))
    (query : Nat → Option ZReply) (addr : Nat) (wc wm : Bool) (extra : Option Nat)
    (x : Nat) (hx : (bnctLookup active x).isSome = true) :
    (bnctLookup (bgp_nexthop_lookup_v4 active inactive query addr wc wm extra).active
      x).isSome = true := by
  cases h : bnctLookup active addr with
  | some b => simpa [bgp_nexthop_lookup_v4, h] using hx
  | none =>
      simp only [bgp_nexthop_lookup_v4, h, bnctLookup]
      split
      · simp
      · exact hx

/-- The resolver is invoked only when the active buffer misses. -/
theorem lookup_v4_queried_fresh (active inactive : List (Nat × Bnc))
    (query : Nat → Option ZReply) (addr : Nat) (wc wm : Bool) (extra : Option Nat)
    (hq : (bgp_nexthop_lookup_v4 active inactive query addr wc wm extra).queried = true) :
    bnctLookup active addr = none := by
  cases h : bnctLookup active addr with
  | none => rfl
  | some b => simp [bgp_nexthop_lookup_v4, h] at hq

/-- An address already present in the active buffer is never queried during
the rest of the scan. -/
theorem runScan_not_queried (inactive : List (Nat × Bnc)) (query : Nat → Option ZReply)
    (addrs : List Nat) :
    ∀ (active : List (Nat × Bnc)) (x : Nat),
      (bnctLookup active x).isSome = true → x ∉ (runScan inactive query active addrs).2 := by
  induction addrs with
  | nil => intro active x _; simp [runScan]
  | cons a rest ih =>
      intro active x hx
      simp only [runScan]
      intro hmem
      rcases List.mem_append.mp hmem with hl | hr
      · by_cases hq : (bgp_nexthop_lookup_v4 active inactive query a true true none).queried
          = true
        · rw [if_pos hq] at hl
          have hxa : x = a := List.mem_singleton.mp hl
          subst hxa
          rw [lookup_v4_queried_fresh active inactive query x true true none hq] at hx
          cases hx
        · rw [if_neg hq] at hl
          cases hl
      · exact ih _ x (lookup_v4_active_mono active inactive query a true true none x hx) hr

/-- C5: within one scan generation, the resolver is queried at most once
per nexthop address: the list of addresses for which `bgp_nexthop_lookup`
invoked `zlookup_query` over a whole RIB walk has no duplicates — every
later lookup of an already-seen address (including one whose resolver
reply was NULL and whose synthetic unresolved entry was inserted) is
served from the active buffer. -/
theorem c5_one_query_per_address (inactive : List (Nat × Bnc))
    (query : Nat → Option ZReply) (active : List (Nat × Bnc)) (addrs : List Nat) :
    ((runScan inactive query active addrs).2).Nodup := by
  induction addrs generalizing active with
  | nil => simp [runScan]
  | cons a rest ih =>
      simp only [runScan]
      by_cases hq : (bgp_nexthop_lookup_v4 active inactive query a true true none).queried
        = true
      · rw [if_pos hq, List.singleton_append]
        refine List.nodup_cons.mpr ⟨?_, ih _⟩
        exact runScan_not_queried inactive query rest _ a
          (lookup_v4_active_self active inactive query a true true none)
      · rw [if_neg hq, List.nil_append]
        exact ih _

/-- C8: identical resolver replies on two consecutive scans give
`changed = false` and `metricchanged = false` on the second scan's fresh
insertion.  Scan 1 starts from an empty active buffer and some previous
generation `inact1`; scan 2's previous generation is scan 1's resulting
active buffer. -/
theorem c8_change_detection_idempotent (r : ZReply) (inact1 : List (Nat × Bnc))
    (addr : Nat) (e1 e2 : Option Nat) :
    ((bgp_nexthop_lookup_v4 []
        (bgp_nexthop_lookup_v4 [] inact1 (fun _ => some r) addr true true e1).active
        (fun _ => some r) addr true true e2).changedOut = some false)
    ∧ ((bgp_nexthop_lookup_v4 []
        (bgp_nexthop_lookup_v4 [] inact1 (fun _ => some r) addr true true e1).active
        (fun _ => some r) addr true true e2).metricchangedOut = some false) := by
  cases hr : zlookup_read r with
  | none =>
      constructor <;>
        simp [bgp_nexthop_lookup_v4, freshBnc, zlookup_query, hr, bncNew, bnctLookup]
  | some b =>
      have hq' : zlookup_query (fun _ => some r) addr = some b := by
        simp [zlookup_query, hr]
      have hp := zlookup_query_props hq'
      set b1 : Bnc := freshBnc inact1 (fun _ => some r) addr true with hb1
      have hf := freshBnc_core_fields inact1 (fun _ => some r) addr b hq'
      have hdiff : bgp_nexthop_cache_different b b1 = false :=
        different_eq_false_of_fields b b1 hf.1.symm hf.2.1.symm (le_of_eq hp.2.2.2)
      have hm : (b.metric != b1.metric) = false := by
        rw [hb1]
        simp [hf.2.2]
      have hact1 : (bgp_nexthop_lookup_v4 [] inact1 (fun _ => some r) addr true true e1).active
          = [(addr, b1)] := rfl
      rw [hact1]
      have hl2 : bnctLookup [(addr, b1)] addr = some b1 := by simp [bnctLookup]
      constructor <;>
        simp [bgp_nexthop_lookup_v4, bnctLookup, freshBnc, hq', hl2, hdiff, hm, hp.2.2.1]

/-- C4, counterexample: a scan invoked while no default BGP instance
exists performs the buffer swap and then returns: no reset event occurs
and the post-scan inactive buffer (the pre-scan active one) keeps its
entry instead of being emptied. -/
theorem c4_counterexample :
    ((bgp_scan false (fun _ => none) [] ⟨[(0, bncNew)], [], true⟩).2.count
        ScanEvent.resetEv = 0)
    ∧ (bgp_scan false (fun _ => none) [] ⟨[(0, bncNew)], [], true⟩).1.inactive
        = [(0, bncNew)] := by
  constructor <;> rfl

/-- C4 (amended): when a default BGP instance exists, a scan performs the
inactive-buffer reset exactly once, at scan end, leaving the inactive
buffer empty; when no default instance exists, the scan returns right
after the swap, performing no reset, and the buffers are exactly the
swapped pre-scan buffers. -/
theorem c4_scan_reset (hasDefaultBgp : Bool) (query : Nat → Option ZReply)
    (addrs : List Nat) (b : Buffers) :
    (hasDefaultBgp = true →
        (bgp_scan hasDefaultBgp query addrs b).2.count ScanEvent.resetEv = 1
        ∧ (bgp_scan hasDefaultBgp query addrs b).1.inactive = [])
    ∧ (hasDefaultBgp = false →
        (bgp_scan hasDefaultBgp query addrs b).2.count ScanEvent.resetEv = 0
        ∧ (bgp_scan hasDefaultBgp query addrs b).1 = bnct_swap b) := by
  cases hasDefaultBgp with
  | false =>
      constructor
      · intro h
        cases h
      · intro _
        exact ⟨rfl, rfl⟩
  | true =>
      constructor
      · intro _
        refine ⟨rfl, ?_⟩
        cases hb : b.activeIs1 <;>
          simp [bgp_scan, resetInactive, Buffers.setActive, bnct_swap, Buffers.inactive, hb]
      · intro h
        cases h

theorem c4_scan_reset_witness :
    (bgp_scan true (fun _ => none) [] ⟨[], [], true⟩).2.count ScanEvent.resetEv = 1
    ∧ (bgp_scan true (fun _ => none) [] ⟨[], [], true⟩).1.inactive = [] :=
  (c4_scan_reset true (fun _ => none) [] ⟨[], [], true⟩).1 rfl

end BgpNexthop

namespace BgpNexthop

theorem verify_rgates_aux_ne_nil (B : Nat) :
    ∀ (l buf : List (Nat × Nat)), verify_rgates_aux B l buf ≠ [] := by
  intro l
  induction l with
  | nil => intro buf; simp [verify_rgates_aux]
  | cons pr rest ih =>
      intro buf
      simp only [verify_rgates_aux]
      split
      · simp
      · exact ih _

/-- Frame count of the batching loop: one frame per full batch plus the
final (possibly empty) frame. -/
theorem verify_rgates_aux_length (B : Nat) :
    ∀ (l buf : List (Nat × Nat)), buf.length < B →
      (verify_rgates_aux B l buf).length = (buf.length + l.length) / B + 1 := by
  intro l
  induction l with
  | nil =>
      intro buf h
      simp [verify_rgates_aux, Nat.div_eq_of_lt h]
  | cons pr rest ih =>
      intro buf h
      simp only [verify_rgates_aux]
      by_cases hb : buf.length + 1 = B
      · have hB : 0 < B := by omega
        rw [if_pos hb, List.length_cons, ih [] hB]
        simp only [List.length_nil, List.length_cons, Nat.zero_add]
        have h2 : buf.length + (rest.length + 1) = rest.length + B := by omega
        rw [h2, Nat.add_div_right _ hB]
      · rw [if_neg hb]
        have h1 : (buf ++ [pr]).length < B := by
          simp only [List.length_append, List.length_cons, List.length_nil]
          omega
        rw [ih (buf ++ [pr]) h1]
        have h2 : (buf ++ [pr]).length + rest.length = buf.length + (rest.length + 1) := by
          simp only [List.length_append, List.length_cons, List.length_nil]
          omega
        rw [h2]
        simp

/-- Every frame but the last carries morefollows=1; the last carries
morefollows=0. -/
theorem verify_rgates_aux_flags (B : Nat) :
    ∀ (l buf : List (Nat × Nat)),
      (verify_rgates_aux B l buf).map RgateFrame.morefollows
        = List.replicate ((verify_rgates_aux B l buf).length - 1) true ++ [false] := by
  intro l
  induction l with
  | nil => intro buf; simp [verify_rgates_aux]
  | cons pr rest ih =>
      intro buf
      simp only [verify_rgates_aux]
      by_cases hb : buf.length + 1 = B
      · rw [if_pos hb]
        have hpos : 0 < (verify_rgates_aux B rest []).length :=
          List.length_pos.mpr (verify_rgates_aux_ne_nil B rest [])
        have hlen : (verify_rgates_aux B rest []).length - 1 + 1
            = (verify_rgates_aux B rest []).length := Nat.succ_pred_eq_of_pos hpos
        rw [List.map_cons, ih [], List.length_cons, Nat.add_sub_cancel, ← hlen,
          List.replicate_succ]
        simp
      · rw [if_neg hb]
        exact ih _

/-- C2, counterexample: for N = 0 pairs the batching loop still emits its
final frame (empty payload, morefollows=0), i.e. one frame, whereas the
claimed count is the ceiling of N/B, which is 0. -/
theorem c2_counterexample :
    verify_ipv4_rgates [] = [{ morefollows := false, pairs := [] }]
    ∧ (0 + VERIFIED_NEXTHOPS_PER_MSG - 1) / VERIFIED_NEXTHOPS_PER_MSG = 0 := by
  constructor
  · rfl
  · decide

/-- C2 (amended): for N pairs (socket open, all writes succeeding) the
driver emits exactly N/B + 1 request frames, where B is the batch cap
`VERIFIED_NEXTHOPS_PER_MSG` and the division rounds down; every frame
except the last carries morefollows=1 and the last carries
morefollows=0. -/
theorem c2_rgate_batching (ps : List (Nat × Nat)) :
    (verify_ipv4_rgates ps).length = ps.length / VERIFIED_NEXTHOPS_PER_MSG + 1
    ∧ (verify_ipv4_rgates ps).map RgateFrame.morefollows
        = List.replicate ((verify_ipv4_rgates ps).length - 1) true ++ [false] := by
  constructor
  · have h := verify_rgates_aux_length VERIFIED_NEXTHOPS_PER_MSG ps [] (by decide)
    simpa [verify_ipv4_rgates] using h
  · exact verify_rgates_aux_flags VERIFIED_NEXTHOPS_PER_MSG ps []

/-- C7, counterexample: both addresses fall in the single connected
prefix, so both longest-prefix matches succeed and return the same node,
yet the check returns 0 because the resolver socket is closed — a
condition the claim omits. -/
theorem c7_counterexample :
    bgp_node_match [(8, 30)] 9 = some (8, 30)
    ∧ bgp_node_match [(8, 30)] 10 = some (8, 30)
    ∧ bgp_multiaccess_check_v4 false [(8, 30)] 9 (some 10) = false := by
  decide

/-- C7 (amended): with the resolver socket open and a parseable peer
address, `bgp_multiaccess_check_v4` returns true iff both addresses have a
longest-prefix match in the IPv4 connected table and both matches return
the same stored node; with the socket closed it returns false
regardless. -/
theorem c7_multiaccess_same_node (table : List Pfx) (nexthop addr : Nat) :
    bgp_multiaccess_check_v4 true table nexthop (some addr) = true
    ↔ ∃ rn, bgp_node_match table nexthop = some rn
        ∧ bgp_node_match table addr = some rn := by
  cases h1 : bgp_node_match table nexthop with
  | none => simp [bgp_multiaccess_check_v4, h1]
  | some rn1 =>
      cases h2 : bgp_node_match table addr with
      | none => simp [bgp_multiaccess_check_v4, h1, h2]
      | some rn2 =>
          simp [bgp_multiaccess_check_v4, h1, h2]
          exact eq_comm

end BgpNexthop

namespace BgpNexthop

theorem connLookup_mem :
    ∀ (t : List (Pfx × Int)) (p : Pfx) (n : Int),
      connLookup t p = some n → (p, n) ∈ t
  | [], _, _, h => by cases h
  | (q, m) :: rest, p, n, h => by
      simp only [connLookup] at h
      by_cases hpq : p = q
      · rw [if_pos hpq] at h
        injection h with h'
        subst hpq
        subst h'
        exact List.mem_cons_self _ _
      · rw [if_neg hpq] at h
        exact List.mem_cons_of_mem _ (connLookup_mem rest p n h)

theorem connLookup_append_right :
    ∀ (t : List (Pfx × Int)) (p : Pfx) (v : Int),
      connLookup t p = none → connLookup (t ++ [(p, v)]) p = some v
  | [], p, v, _ => by simp [connLookup]
  | (q, m) :: rest, p, v, h => by
      simp only [connLookup, List.cons_append] at h ⊢
      by_cases hpq : p = q
      · rw [if_pos hpq] at h
        cases h
      · rw [if_neg hpq] at h ⊢
        exact connLookup_append_right rest p v h

theorem connRemove_append_right :
    ∀ (t : List (Pfx × Int)) (p : Pfx) (v : Int),
      connLookup t p = none → connRemove (t ++ [(p, v)]) p = t
  | [], p, v, _ => by simp [connRemove]
  | (q, m) :: rest, p, v, h => by
      simp only [connLookup] at h
      simp only [List.cons_append, connRemove]
      by_cases hpq : p = q
      · rw [if_pos hpq] at h
        cases h
      · rw [if_neg hpq] at h
        rw [if_neg hpq]
        exact congrArg (List.cons (q, m)) (connRemove_append_right rest p v h)

theorem connLookup_connUpdate_self :
    ∀ (t : List (Pfx × Int)) (p : Pfx) (n v : Int),
      connLookup t p = some n → connLookup (connUpdate t p v) p = some v
  | [], _, _, _, h => by cases h
  | (q, m) :: rest, p, n, v, h => by
      simp only [connLookup, connUpdate] at h ⊢
      by_cases hpq : p = q
      · rw [if_pos hpq]
        simp only [connLookup, if_pos hpq]
      · rw [if_neg hpq] at h
        rw [if_neg hpq]
        simp only [connLookup, if_neg hpq]
        exact connLookup_connUpdate_self rest p n v h

theorem connUpdate_self :
    ∀ (t : List (Pfx × Int)) (p : Pfx) (n : Int),
      connLookup t p = some n → connUpdate t p n = t
  | [], _, _, h => by cases h
  | (q, m) :: rest, p, n, h => by
      simp only [connLookup, connUpdate] at h ⊢
      by_cases hpq : p = q
      · rw [if_pos hpq] at h
        injection h with h'
        rw [if_pos hpq, h']
      · rw [if_neg hpq] at h
        rw [if_neg hpq, connUpdate_self rest p n h]

theorem connUpdate_connUpdate :
    ∀ (t : List (Pfx × Int)) (p : Pfx) (v w : Int),
      connUpdate (connUpdate t p v) p w = connUpdate t p w
  | [], _, _, _ => rfl
  | (q, m) :: rest, p, v, w => by
      by_cases hpq : p = q
      · simp only [connUpdate, if_pos hpq]
      · simp only [connUpdate, if_neg hpq]
        rw [connUpdate_connUpdate rest p v w]

theorem allPos_connUpdate :
    ∀ (t : List (Pfx × Int)) (p : Pfx) (v : Int),
      (∀ e ∈ t, 1 ≤ e.2) → 1 ≤ v → ∀ e ∈ connUpdate t p v, 1 ≤ e.2
  | [], _, _, _, _ => by intro e he; cases he
  | (q, m) :: rest, p, v, ht, hv => by
      intro e he
      simp only [connUpdate] at he
      by_cases hpq : p = q
      · rw [if_pos hpq] at he
        rcases List.mem_cons.mp he with h | h
        · subst h; exact hv
        · exact ht e (List.mem_cons_of_mem _ h)
      · rw [if_neg hpq] at he
        rcases List.mem_cons.mp he with h | h
        · subst h; exact ht (q, m) (List.mem_cons_self _ _)
        · exact allPos_connUpdate rest p v
            (fun x hx => ht x (List.mem_cons_of_mem _ hx)) hv e h

theorem allPos_connRemove :
    ∀ (t : List (Pfx × Int)) (p : Pfx),
      (∀ e ∈ t, 1 ≤ e.2) → ∀ e ∈ connRemove t p, 1 ≤ e.2
  | [], _, _ => by intro e he; cases he
  | (q, m) :: rest, p, ht => by
      intro e he
      simp only [connRemove] at he
      by_cases hpq : p = q
      · rw [if_pos hpq] at he
        exact ht e (List.mem_cons_of_mem _ he)
      · rw [if_neg hpq] at he
        rcases List.mem_cons.mp he with h | h
        · subst h; exact ht (q, m) (List.mem_cons_self _ _)
        · exact allPos_connRemove rest p
            (fun x hx => ht x (List.mem_cons_of_mem _ hx)) e h

/-- `bgp_connected_add` keeps every refcount at least 1. -/
theorem allPos_connected_add (lo : Bool) (t : List (Pfx × Int)) (p : Pfx)
    (ht : ∀ e ∈ t, 1 ≤ e.2) : ∀ e ∈ bgp_connected_add lo t p, 1 ≤ e.2 := by
  simp only [bgp_connected_add]
  split
  · exact ht
  · split
    · exact ht
    · cases hl : connLookup t (maskPfxV4 p) with
      | some n =>
          have hn : 1 ≤ n := ht _ (connLookup_mem t _ n hl)
          simp only [hl]
          exact allPos_connUpdate t _ (n + 1) ht (by omega)
      | none =>
          simp only [hl]
          intro e he
          rcases List.mem_append.mp he with h | h
          · exact ht e h
          · have : e = (maskPfxV4 p, 1) := List.mem_singleton.mp h
            subst this
            exact le_refl 1

/-- `bgp_connected_delete` keeps every refcount at least 1: it removes the
entry rather than store a zero, and the invariant rules out negatives. -/
theorem allPos_connected_delete (lo : Bool) (t : List (Pfx × Int)) (p : Pfx)
    (ht : ∀ e ∈ t, 1 ≤ e.2) : ∀ e ∈ bgp_connected_delete lo t p, 1 ≤ e.2 := by
  simp only [bgp_connected_delete]
  split
  · exact ht
  · split
    · exact ht
    · cases hl : connLookup t (maskPfxV4 p) with
      | none => simp only [hl]; exact ht
      | some n =>
          have hn : 1 ≤ n := ht _ (connLookup_mem t _ n hl)
          simp only [hl]
          split
          · exact allPos_connRemove t _ ht
          · rename_i hne
            exact allPos_connUpdate t _ (n - 1) ht (by omega)

theorem allPos_applyConnOps :
    ∀ (ops : List (Bool × Bool × Pfx)) (t : List (Pfx × Int)),
      (∀ e ∈ t, 1 ≤ e.2) → ∀ e ∈ applyConnOps ops t, 1 ≤ e.2
  | [], _, ht => ht
  | (isAdd, lo, p) :: rest, t, ht => by
      simp only [applyConnOps]
      cases isAdd with
      | true => exact allPos_applyConnOps rest _ (allPos_connected_add lo t p ht)
      | false => exact allPos_applyConnOps rest _ (allPos_connected_delete lo t p ht)

/-- On a table whose refcounts are all positive, adding then deleting an
accepted prefix restores the table exactly. -/
theorem connected_add_delete (t : List (Pfx × Int)) (p : Pfx)
    (hpos : ∀ e ∈ t, 1 ≤ e.2)
    (hacc : pfxIsAnyV4 (maskPfxV4 p) = false) :
    bgp_connected_delete false (bgp_connected_add false t p) p = t := by
  cases hl : connLookup t (maskPfxV4 p) with
  | none =>
      simp only [bgp_connected_add, bgp_connected_delete, Bool.false_eq_true, if_false,
        hacc, hl, connLookup_append_right t (maskPfxV4 p) 1 hl]
      rw [if_pos (show (1 : Int) - 1 = 0 by norm_num)]
      exact connRemove_append_right t (maskPfxV4 p) 1 hl
  | some n =>
      have hn : 1 ≤ n := hpos _ (connLookup_mem t _ n hl)
      simp only [bgp_connected_add, bgp_connected_delete, Bool.false_eq_true, if_false,
        hacc, hl, connLookup_connUpdate_self t (maskPfxV4 p) n (n + 1) hl]
      rw [if_neg (show ¬(n + 1 - 1 = 0) by omega)]
      have h2 : n + 1 - 1 = n := by omega
      rw [h2, connUpdate_connUpdate, connUpdate_self t (maskPfxV4 p) n hl]

/-- C9: on any reachable connected table (all refcounts positive),
`connected_add(p)` followed by `connected_delete(p)` for an accepted
prefix leaves the table unchanged (entry removal standing in for the
empty-vs-absent node equivalence), and along any sequence of add/delete
operations from the empty table every stored refcount stays
non-negative. -/
theorem c9_connected_roundtrip_and_refcnt :
    (∀ (t : List (Pfx × Int)) (p : Pfx), (∀ e ∈ t, 1 ≤ e.2) →
        pfxIsAnyV4 (maskPfxV4 p) = false →
        bgp_connected_delete false (bgp_connected_add false t p) p = t)
    ∧ (∀ ops : List (Bool × Bool × Pfx), ∀ e ∈ applyConnOps ops [], 0 ≤ e.2) := by
  constructor
  · intro t p hpos hacc
    exact connected_add_delete t p hpos hacc
  · intro ops e he
    have h1 := allPos_applyConnOps ops [] (by intro e he; cases he) e he
    omega

theorem c9_connected_witness :
    bgp_connected_delete false (bgp_connected_add false [] (8, 30)) (8, 30) = []
    ∧ ∀ e ∈ applyConnOps [(true, false, (8, 30))] [], 0 ≤ e.2 :=
  ⟨c9_connected_roundtrip_and_refcnt.1 [] (8, 30) (by intro e he; cases he) (by decide),
   c9_connected_roundtrip_and_refcnt.2 [(true, false, (8, 30))]⟩

end BgpNexthop
